import Mathlib

/-!
Verification of the RAG data pipeline core (VectorStore, Retriever,
RAGPipeline) against its specification.

The TypeScript source is shallowly embedded: floating-point similarity
scores are modelled as rationals, asynchronous calls as pure functions,
promise rejection as `Except.error`, and the mutable in-memory `Map` as an
association list with JS `Map.set` semantics (replace in place when the key
is present, append otherwise).  Calls made to the embedding provider and to
the generator are recorded as explicit traces so that claims about call
counts can be stated.
-/

deriving instance DecidableEq for Except

namespace RagPipeline

/-- Embedding of the `RagDocument` interface (src/data-loader.ts).
`metadata` is an opaque pass-through, modelled as an optional association
list; `embedding` and `similarity` are optional exactly as in the source. -/
structure RagDocument where
  id : String
  content : String
  metadata : Option (List (String × String)) := none
  embedding : Option (List ℚ) := none
  similarity : Option ℚ := none
deriving Repr, DecidableEq

/-- Embedding of the `EmbeddingModel` interface (src/vector-store.ts).
`generateEmbeddings` is an asynchronous call that may reject; rejection is
modelled as `Except.error` carrying the error message. -/
structure EmbeddingModel where
  name : String
  generateEmbeddings : List String → Except String (List (List ℚ))

/-- The in-memory backend state: the entries of the JS `Map<string,
RagDocument>` in insertion order. -/
structure InMemoryStore where
  entries : List (String × RagDocument)
deriving Repr, DecidableEq

/-- JS `Map.set` semantics: if the key is present, replace its value in
place (insertion order kept); otherwise append the new binding. -/
def mapSet (m : List (String × RagDocument)) (k : String) (v : RagDocument) :
    List (String × RagDocument) :=
  if m.any (fun p => p.1 = k) then
    m.map (fun p => if p.1 = k then (k, v) else p)
  else
    m ++ [(k, v)]

/-- The test `!doc.embedding && doc.content` selecting the documents that
get batched for embedding generation (src/vector-store.ts line 139):
no embedding present and non-empty (truthy) content. -/
def needsEmbed (d : RagDocument) : Bool :=
  d.embedding.isNone && d.content ≠ ""

/-- The assignment loop `docsToEmbed.forEach((doc, index) => { doc.embedding
= embeddings[index]; })` (src/vector-store.ts lines 144-146), seen from the
full `documents` array: each document selected by `needsEmbed` receives the
next unconsumed generated vector, in input order; the others are untouched.
JS indexing past the end yields `undefined`, hence the `Option`-valued
`head?`. -/
def assignEmbeds : List RagDocument → List (List ℚ) → List RagDocument
  | [], _ => []
  | d :: ds, es =>
    if needsEmbed d then
      { d with embedding := es.head? } :: assignEmbeds ds es.tail
    else
      d :: assignEmbeds ds es

/-- Result of `addDocuments`: the outcome (new store state and the caller's
document array after the call, since the source mutates the documents in
place), together with the list of batches passed to
`EmbeddingProvider.generateEmbeddings` during the call. -/
structure AddResult where
  result : Except String (InMemoryStore × List RagDocument)
  embedCalls : List (List String)
deriving DecidableEq

/-- The embedding stage of `addDocuments` (src/vector-store.ts lines
139-147): the documents lacking an embedding but having non-empty content
are batched into a single `generateEmbeddings` call and the resulting
vectors assigned back in input order.  Returns the mutated document array
(or the propagated rejection) together with the batches issued. -/
def embedStage (model : EmbeddingModel) (documents : List RagDocument) :
    Except String (List RagDocument) × List (List String) :=
  if (documents.filter needsEmbed).length > 0 then
    match model.generateEmbeddings ((documents.filter needsEmbed).map (fun d => d.content)) with
    | .error e => (.error e, [(documents.filter needsEmbed).map (fun d => d.content)])
    | .ok embeddings => (.ok (assignEmbeds documents embeddings),
        [(documents.filter needsEmbed).map (fun d => d.content)])
  else (.ok documents, [])

/-- The in-memory storage loop of `addDocuments` (src/vector-store.ts lines
159-161): every document with an embedding is upserted into the map by id,
the others are skipped. -/
def storeDocs (store : InMemoryStore) (documents : List RagDocument) : InMemoryStore :=
  documents.foldl
    (fun st d => if d.embedding.isSome then ⟨mapSet st.entries d.id d⟩ else st)
    store

/-- Embedding of `VectorStore.addDocuments` (src/vector-store.ts lines
135-188) for the in-memory backend: empty input returns immediately,
otherwise the embedding stage runs, a rejection propagates (there is no
catch in the source), and the mutated documents go through the storage
loop. -/
def addDocuments (model : EmbeddingModel) (store : InMemoryStore)
    (documents : List RagDocument) : AddResult :=
  if documents.length = 0 then ⟨.ok (store, documents), []⟩
  else
    match embedStage model documents with
    | (.error e, calls) => ⟨.error e, calls⟩
    | (.ok docs2, calls) => ⟨.ok (storeDocs store docs2, docs2), calls⟩

/-- Embedding of `VectorStore.similaritySearch` for the in-memory backend
(src/vector-store.ts lines 199-208): the placeholder takes the stored
values in insertion order and returns the first `topK`, ignoring the query
embedding entirely and attaching no similarity annotation. -/
def similaritySearch (store : InMemoryStore) (queryEmbedding : List ℚ)
    (topK : ℕ) : List RagDocument :=
  ((store.entries.map Prod.snd).take topK : List RagDocument)

/-- Dot product of two vectors, used to compare cosine similarities of
equal-norm vectors (for such vectors, cosine order coincides with dot
order). -/
def dotList (a b : List ℚ) : ℚ :=
  (List.zipWith (fun x y => x * y) a b).sum

/-- Squared Euclidean norm of a vector. -/
def normSq (a : List ℚ) : ℚ := dotList a a

/-- The retriever state after construction: the `topK` and
`similarityThreshold` fields of the `Retriever` class. -/
structure Retriever where
  topK : ℕ
  similarityThreshold : ℚ
deriving Repr, DecidableEq

/-- JS `x || d` on an optional number: the default replaces both an absent
value and a present falsy (zero) value. -/
def jsOrNat (v : Option ℕ) (d : ℕ) : ℕ :=
  match v with
  | none => d
  | some n => if n = 0 then d else n

/-- JS `x || d` on an optional numeric value modelled as a rational. -/
def jsOrRat (v : Option ℚ) (d : ℚ) : ℚ :=
  match v with
  | none => d
  | some x => if x = 0 then d else x

/-- Embedding of the `Retriever` constructor (src/retriever.ts lines
27-33): `topK = config.topK || 5`, `similarityThreshold =
config.similarityThreshold || 0.7`. -/
def mkRetriever (topK : Option ℕ) (similarityThreshold : Option ℚ) : Retriever :=
  ⟨jsOrNat topK 5, jsOrRat similarityThreshold (7/10)⟩

/-- Embedding of the `RAGPipeline` constructor building its internal
retriever (src/pipeline.ts lines 293-298): the pipeline forwards
`retrieverTopK` unchanged and passes `retrieverSimilarityThreshold || 0.7`
as the threshold, adding that the retriever constructor applies its own
`|| 0.7` again. -/
def mkPipelineRetriever (retrieverTopK : Option ℕ)
    (retrieverSimilarityThreshold : Option ℚ) : Retriever :=
  mkRetriever retrieverTopK (some (jsOrRat retrieverSimilarityThreshold (7/10)))

/-- The relevance filter predicate of `Retriever.retrieve` (src/retriever.ts
lines 56-67): keep a document when its similarity annotation is present and
at least the threshold, or when no annotation is present. -/
def keepDoc (threshold : ℚ) (d : RagDocument) : Bool :=
  match d.similarity with
  | some s => decide (s ≥ threshold)
  | none => true

/-- Embedding of `Retriever.retrieve` (src/retriever.ts lines 40-71).  The
vector store is abstracted, as in the source, to its `similaritySearch`
capability.  An embedding rejection propagates (the source has no
try/catch); an empty embedding result — `!queryEmbedding` after
destructuring — yields an empty result list; otherwise the search result is
filtered by the similarity threshold. -/
def retrieve (model : EmbeddingModel) (search : List ℚ → ℕ → List RagDocument)
    (r : Retriever) (query : String) : Except String (List RagDocument) :=
  match model.generateEmbeddings [query] with
  | .error e => .error e
  | .ok es =>
    match es.head? with
    | none => .ok []
    | some queryEmbedding =>
      let retrieved := search queryEmbedding r.topK
      .ok (retrieved.filter (keepDoc r.similarityThreshold))

/-- The fixed separator used by `Retriever.formatContext`. -/
def contextSeparator : String := "\n\n---\n\n"

/-- Embedding of `Retriever.formatContext` (src/retriever.ts lines 78-80):
`documents.map(doc => doc.content).join('\n\n---\n\n')`. -/
def formatContext (documents : List RagDocument) : String :=
  String.intercalate contextSeparator (documents.map (fun d => d.content))

/-- The metadata of an LLM response, reduced to the field the pipeline
claims concern. -/
structure LLMMetadata where
  finishReason : Option String := none
deriving Repr, DecidableEq

/-- Embedding of the `LLMResponse` interface (src/llm.ts lines 115-127),
reduced to the fields the pipeline manipulates. -/
structure LLMResponse where
  text : String
  sourceDocuments : Option (List RagDocument) := none
  metadata : Option LLMMetadata := none
deriving Repr, DecidableEq

/-- The fixed text returned by `RAGPipeline.query` when retrieval yields no
relevant documents (src/pipeline.ts line 349). -/
def noInfoText : String :=
  "I couldn\x27t find any specific information related to your query in my current knowledge base."

/-- Result of `RAGPipeline.query`: the outcome and the list of prompts sent
to the generator during the call. -/
structure QueryResult where
  response : Except String LLMResponse
  llmCalls : List String
deriving DecidableEq

/-- Embedding of `RAGPipeline.query` (src/pipeline.ts lines 340-371).  When
retrieval returns no documents the fixed no-context response is returned and
the generator is never called; otherwise the context is formatted,
substituted into the prompt template, and the generator response is returned
with `sourceDocuments` overwritten by the retrieved documents. -/
def pipelineQuery (model : EmbeddingModel)
    (search : List ℚ → ℕ → List RagDocument) (r : Retriever)
    (promptTemplate : String → String → String)
    (generate : String → LLMResponse) (query : String) : QueryResult :=
  match retrieve model search r query with
  | .error e => ⟨.error e, []⟩
  | .ok relevantDocuments =>
    if relevantDocuments.length = 0 then
      ⟨.ok { text := noInfoText
             sourceDocuments := some []
             metadata := some { finishReason := some "no_context" } }, []⟩
    else
      let context := formatContext relevantDocuments
      let fullPrompt := promptTemplate context query
      let llmResponse := generate fullPrompt
      ⟨.ok { llmResponse with sourceDocuments := some relevantDocuments }, [fullPrompt]⟩

/-! ### Helper lemmas -/

/-- The accumulator of the `String.intercalate` worker distributes over
string append. -/
lemma intercalate_go_append (s : String) (l : List String) :
    ∀ x y : String, String.intercalate.go (x ++ y) s l = x ++ String.intercalate.go y s l := by
  induction l with
  | nil => intro x y; rfl
  | cons a as ih =>
    intro x y
    show String.intercalate.go (x ++ y ++ s ++ a) s as
      = x ++ String.intercalate.go (y ++ s ++ a) s as
    rw [String.append_assoc x y s, String.append_assoc x (y ++ s) a]
    exact ih x ((y ++ s) ++ a)

/-- Indexing a list at a successor index is indexing its tail. -/
lemma get?_succ_tail {α : Type} (es : List α) (c : ℕ) : es.get? (c + 1) = es.tail.get? c := by
  cases es <;> rfl

/-- The assignment loop leaves the number of documents unchanged. -/
lemma assignEmbeds_length (docs : List RagDocument) :
    ∀ es, (assignEmbeds docs es).length = docs.length := by
  induction docs with
  | nil => intro es; rfl
  | cons d ds ih =>
    intro es
    by_cases hd : needsEmbed d <;> simp [assignEmbeds, hd, ih]

/-- Pointwise description of the assignment loop: the document at index `i`
is unchanged unless it needs an embedding, in which case its embedding
becomes the vector whose batch position is the number of needy documents
strictly before index `i` — that is, vectors are consumed in input
order. -/
lemma assignEmbeds_get? (docs : List RagDocument) :
    ∀ (es : List (List ℚ)) (i : ℕ),
      (assignEmbeds docs es).get? i = (docs.get? i).map (fun d =>
        if needsEmbed d then { d with embedding := es.get? ((docs.take i).countP needsEmbed) }
        else d) := by
  induction docs with
  | nil => intro es i; rfl
  | cons d ds ih =>
    intro es i
    by_cases hd : needsEmbed d
    · cases i with
      | zero =>
        simp [assignEmbeds, hd]
        cases es <;> simp
      | succ n =>
        rw [assignEmbeds, if_pos hd, List.get?_cons_succ, ih es.tail n, List.get?_cons_succ]
        simp [List.take_succ_cons, List.countP_cons, hd, get?_succ_tail]
    · cases i with
      | zero => simp [assignEmbeds, hd]
      | succ n =>
        rw [assignEmbeds, if_neg hd, List.get?_cons_succ, ih es n, List.get?_cons_succ]
        simp [List.take_succ_cons, List.countP_cons, hd]

/-- When no document needs an embedding, the embed stage does nothing and
issues no batch. -/
lemma embedStage_of_no_embeds (model : EmbeddingModel) (docs : List RagDocument)
    (h : docs.filter needsEmbed = []) :
    embedStage model docs = (.ok docs, []) := by
  unfold embedStage
  rw [h]
  rfl

/-- When some documents need embeddings and the provider call resolves,
the embed stage issues exactly the one batch of their contents and assigns
the vectors back. -/
lemma embedStage_of_genOk (model : EmbeddingModel) (docs : List RagDocument)
    (es : List (List ℚ))
    (hne : docs.filter needsEmbed ≠ [])
    (hok : model.generateEmbeddings ((docs.filter needsEmbed).map (fun d => d.content)) = .ok es) :
    embedStage model docs = (.ok (assignEmbeds docs es),
      [(docs.filter needsEmbed).map (fun d => d.content)]) := by
  unfold embedStage
  rw [if_pos (List.length_pos.mpr hne), hok]

/-- `addDocuments` on a non-empty batch with nothing to embed: the
documents go straight to the storage loop. -/
lemma addDocuments_of_no_embeds (model : EmbeddingModel) (store : InMemoryStore)
    (docs : List RagDocument) (hd : docs ≠ []) (h : docs.filter needsEmbed = []) :
    addDocuments model store docs = ⟨.ok (storeDocs store docs, docs), []⟩ := by
  unfold addDocuments
  rw [if_neg (by simpa [List.length_eq_zero] using hd), embedStage_of_no_embeds model docs h]

/-- `addDocuments` on a batch with documents to embed, when the provider
call resolves. -/
lemma addDocuments_of_genOk (model : EmbeddingModel) (store : InMemoryStore)
    (docs : List RagDocument) (es : List (List ℚ))
    (hne : docs.filter needsEmbed ≠ [])
    (hok : model.generateEmbeddings ((docs.filter needsEmbed).map (fun d => d.content)) = .ok es) :
    addDocuments model store docs =
      ⟨.ok (storeDocs store (assignEmbeds docs es), assignEmbeds docs es),
       [(docs.filter needsEmbed).map (fun d => d.content)]⟩ := by
  have hd : docs ≠ [] := by
    intro h
    rw [h] at hne
    exact hne rfl
  unfold addDocuments
  rw [if_neg (by simpa [List.length_eq_zero] using hd), embedStage_of_genOk model docs es hne hok]

/-- Counting the needy documents strictly before a needy index stays below
the total needy count. -/
lemma countP_take_lt {α : Type} (p : α → Bool) (l : List α) (i : ℕ) (d : α)
    (h : l.get? i = some d) (hp : p d = true) :
    (l.take i).countP p < l.countP p := by
  induction l generalizing i with
  | nil => simp at h
  | cons a as ih =>
    cases i with
    | zero =>
      injection h with h
      subst h
      simp [List.countP_cons, hp]
    | succ n =>
      rw [List.get?_cons_succ] at h
      have := ih n h
      simp only [List.take_succ_cons, List.countP_cons]
      omega

/-- `Map.set` on an entry list whose head has a different key skips the
head. -/
lemma mapSet_cons_ne (p : String × RagDocument) (m : List (String × RagDocument))
    (k : String) (v : RagDocument) (hp : p.1 ≠ k) :
    mapSet (p :: m) k v = p :: mapSet m k v := by
  unfold mapSet
  by_cases hm : m.any (fun q => q.1 = k)
  · rw [if_pos (by simp [List.any_cons, hm]), if_pos hm, List.map_cons, if_neg hp]
  · rw [if_neg (by simp [List.any_cons, hp, hm]), if_neg hm]
    rfl

/-- On a well-formed entry list (no duplicate keys), `Map.set` leaves
exactly one entry with the written key, holding the written value. -/
lemma mapSet_filter_self (k : String) (v : RagDocument) :
    ∀ m : List (String × RagDocument), (m.map Prod.fst).Nodup →
      (mapSet m k v).filter (fun p => p.1 = k) = [(k, v)] := by
  intro m
  induction m with
  | nil =>
    intro hn
    simp [mapSet]
  | cons p m' ih =>
    intro hn
    rw [List.map_cons, List.nodup_cons] at hn
    by_cases hp : p.1 = k
    · have hnotin : k ∉ m'.map Prod.fst := by
        rw [← hp]
        exact hn.1
      have hfix : ∀ q ∈ m', (if q.1 = k then (k, v) else q) = q := by
        intro q hq
        have hqk : q.1 ≠ k := by
          intro he
          exact hnotin (he ▸ List.mem_map_of_mem Prod.fst hq)
        simp [hqk]
      have hnil : m'.filter (fun p => p.1 = k) = [] := by
        rw [List.filter_eq_nil_iff]
        intro q hq
        have hqk : q.1 ≠ k := by
          intro he
          exact hnotin (he ▸ List.mem_map_of_mem Prod.fst hq)
        simp [hqk]
      have hany : (p :: m').any (fun q => q.1 = k) = true := by simp [hp]
      unfold mapSet
      rw [if_pos hany, List.map_cons, if_pos hp, List.map_congr_left hfix, List.map_id',
        List.filter_cons, if_pos (by simp), hnil]
    · rw [mapSet_cons_ne p m' k v hp, List.filter_cons, if_neg (by simp [hp])]
      exact ih hn.2

/-- `Map.set` preserves the no-duplicate-keys invariant of the entry
list. -/
lemma mapSet_keys_nodup (m : List (String × RagDocument)) (k : String) (v : RagDocument)
    (h : (m.map Prod.fst).Nodup) : ((mapSet m k v).map Prod.fst).Nodup := by
  unfold mapSet
  by_cases hany : m.any (fun q => q.1 = k)
  · rw [if_pos hany]
    have hkeys : (m.map (fun p => if p.1 = k then (k, v) else p)).map Prod.fst
        = m.map Prod.fst := by
      rw [List.map_map]
      apply List.map_congr_left
      intro p hp
      by_cases hpk : p.1 = k
      · simp [hpk]
      · simp [hpk]
    rw [hkeys]
    exact h
  · rw [if_neg hany, List.map_append]
    have hnot : k ∉ m.map Prod.fst := by
      intro hk
      obtain ⟨q, hq, hqk⟩ := List.mem_map.mp hk
      apply hany
      exact List.any_eq_true.mpr ⟨q, hq, by simp [hqk]⟩
    refine List.Nodup.append h (by simp) ?_
    intro a ha hb
    simp at hb
    subst hb
    exact hnot ha

/-- A single storable document (embedding present, or non-empty content
with a length-preserving resolving provider) is upserted by `addDocuments`
as one `Map.set` of its id, its content unchanged. -/
lemma addDocuments_single_ok (model : EmbeddingModel) (store : InMemoryStore)
    (doc : RagDocument)
    (hok : ∀ ts, ∃ es, model.generateEmbeddings ts = .ok es ∧ es.length = ts.length)
    (hval : doc.embedding.isSome ∨ doc.content ≠ "") :
    ∃ d, (addDocuments model store [doc]).result = .ok (⟨mapSet store.entries d.id d⟩, [d]) ∧
      d.id = doc.id ∧ d.content = doc.content ∧ d.embedding.isSome := by
  cases hemb : doc.embedding with
  | some w =>
    have hne : needsEmbed doc = false := by simp [needsEmbed, hemb]
    have hfilter : [doc].filter needsEmbed = [] := by simp [List.filter_cons, hne]
    rw [addDocuments_of_no_embeds model store [doc] (by simp) hfilter]
    refine ⟨doc, ?_, rfl, rfl, by simp [hemb]⟩
    simp [storeDocs, hemb]
  | none =>
    have hcon : doc.content ≠ "" := by
      rcases hval with h | h
      · rw [hemb] at h
        simp at h
      · exact h
    have hne : needsEmbed doc = true := by simp [needsEmbed, hemb, hcon]
    have hfilter : [doc].filter needsEmbed = [doc] := by simp [List.filter_cons, hne]
    obtain ⟨es, hes, hlen⟩ := hok (([doc].filter needsEmbed).map (fun d => d.content))
    rw [hfilter] at hes hlen
    simp at hlen
    obtain ⟨v, hv⟩ := List.length_eq_one.mp hlen
    subst hv
    rw [addDocuments_of_genOk model store [doc] [v] (by rw [hfilter]; simp)
      (by rw [hfilter]; exact hes)]
    refine ⟨{ doc with embedding := some v }, ?_, rfl, rfl, rfl⟩
    simp [assignEmbeds, hne, storeDocs]

/-- The filter predicate of `retrieve` is satisfied exactly by documents
with no similarity annotation or with an annotation at least the
threshold. -/
lemma keepDoc_eq_true_iff (t : ℚ) (d : RagDocument) :
    keepDoc t d = true ↔ d.similarity = none ∨ ∃ s, d.similarity = some s ∧ s ≥ t := by
  unfold keepDoc
  cases h : d.similarity with
  | none => simp
  | some s => simp [h]

/-! ### Concrete instances used by witnesses and counterexamples -/

/-- An embedding model whose batch call always rejects. -/
def wEmbFail : EmbeddingModel := ⟨"failing-model", fun _ => .error "boom"⟩

/-- An embedding model whose batch call resolves with an empty result
list. -/
def wEmbEmpty : EmbeddingModel := ⟨"empty-model", fun _ => .ok []⟩

/-- An embedding model returning the one-dimensional vector `[1]` for every
input text. -/
def wEmbOne : EmbeddingModel := ⟨"unit-model", fun ts => .ok (ts.map (fun _ => [1]))⟩

/-- A document annotated with a high similarity score. -/
def wDocHigh : RagDocument := { id := "high", content := "H", similarity := some (9/10) }

/-- A document annotated with a low similarity score. -/
def wDocLow : RagDocument := { id := "low", content := "L", similarity := some (1/10) }

/-- A document with no similarity annotation. -/
def wDocPlain : RagDocument := { id := "plain", content := "P" }

/-- A search capability returning a fixed annotated result set. -/
def wSearch (queryEmbedding : List ℚ) (topK : ℕ) : List RagDocument :=
  [wDocHigh, wDocLow, wDocPlain].take topK

/-- A trivial prompt template. -/
def wTmpl (context query : String) : String := context ++ "|" ++ query

/-- A generator echoing the prompt. -/
def wGen (prompt : String) : LLMResponse := { text := prompt }

/-! ### Claim theorems -/

/-- Claim C7: `formatContext` joins the documents' content fields with the
exact separator between consecutive documents, with every content kept
as-is (no truncation, no deduplication), and returns the empty string on
empty input: it satisfies the defining recurrence of a separator join. -/
theorem formatContext_joins_with_exact_separator :
    formatContext [] = "" ∧
    (∀ d : RagDocument, formatContext [d] = d.content) ∧
    (∀ (d d2 : RagDocument) (ds : List RagDocument),
      formatContext (d :: d2 :: ds)
        = d.content ++ contextSeparator ++ formatContext (d2 :: ds)) := by
  refine ⟨rfl, fun d => rfl, fun d d2 ds => ?_⟩
  show String.intercalate.go (d.content ++ contextSeparator ++ d2.content)
      contextSeparator (ds.map (fun d => d.content))
    = d.content ++ contextSeparator ++ String.intercalate.go d2.content
      contextSeparator (ds.map (fun d => d.content))
  exact intercalate_go_append contextSeparator (ds.map (fun d => d.content))
    (d.content ++ contextSeparator) d2.content

/-- Claim C10: `addDocuments` on an empty document sequence returns
immediately: no embedding batch is issued and the store is returned
unchanged. -/
theorem addDocuments_empty_is_noop (model : EmbeddingModel) (store : InMemoryStore) :
    addDocuments model store [] = ⟨.ok (store, []), []⟩ := rfl

/-- Claim C8: a configured `topK` of 0 or `similarityThreshold` of 0 is
replaced by the default (5 resp. 0.7) by the JS falsy-or defaulting, both
when constructing the Retriever directly and through the RAGPipeline
config; any other in-range value is used as configured. -/
theorem zero_config_replaced_by_default :
    (∀ t : Option ℚ, (mkRetriever (some 0) t).topK = 5) ∧
    (∀ k : Option ℕ, (mkRetriever k (some 0)).similarityThreshold = 7/10) ∧
    (∀ (t : Option ℚ) (k : ℕ), k ≠ 0 → (mkRetriever (some k) t).topK = k) ∧
    (∀ (k : Option ℕ) (x : ℚ), x ≠ 0 → (mkRetriever k (some x)).similarityThreshold = x) ∧
    (∀ t : Option ℚ, (mkPipelineRetriever (some 0) t).topK = 5) ∧
    (∀ k : Option ℕ, (mkPipelineRetriever k (some 0)).similarityThreshold = 7/10) ∧
    (∀ (k : Option ℕ) (x : ℚ), x ≠ 0 →
      (mkPipelineRetriever k (some x)).similarityThreshold = x) := by
  refine ⟨fun t => rfl, fun k => ?_,
    fun t k hk => ?_, fun k x hx => ?_,
    fun t => rfl, fun k => ?_, fun k x hx => ?_⟩
  · simp [mkRetriever, jsOrRat]
  · simp [mkRetriever, jsOrNat, hk]
  · simp [mkRetriever, jsOrRat, hx]
  · norm_num [mkPipelineRetriever, mkRetriever, jsOrRat]
  · norm_num [mkPipelineRetriever, mkRetriever, jsOrRat, hx]

/-- Witness for claim C8 at concrete configurations. -/
theorem zero_config_replaced_by_default_witness :
    (mkRetriever (some 0) (some (1/2))).topK = 5 ∧
    (mkRetriever (some 3) (some 0)).similarityThreshold = 7/10 ∧
    (mkRetriever (some 3) (some (1/2))).topK = 3 ∧
    (mkRetriever (some 3) (some (1/2))).similarityThreshold = 1/2 ∧
    (mkPipelineRetriever (some 0) (some (1/2))).topK = 5 ∧
    (mkPipelineRetriever (some 3) (some 0)).similarityThreshold = 7/10 ∧
    (mkPipelineRetriever (some 3) (some (1/2))).similarityThreshold = 1/2 :=
  ⟨zero_config_replaced_by_default.1 (some (1/2)),
   zero_config_replaced_by_default.2.1 (some 3),
   zero_config_replaced_by_default.2.2.1 (some (1/2)) 3 (by decide),
   zero_config_replaced_by_default.2.2.2.1 (some 3) (1/2) (by norm_num),
   zero_config_replaced_by_default.2.2.2.2.1 (some (1/2)),
   zero_config_replaced_by_default.2.2.2.2.2.1 (some 3),
   zero_config_replaced_by_default.2.2.2.2.2.2 (some 3) (1/2) (by norm_num)⟩

/-- Claim C4, counterexample: when the embedding call rejects, `retrieve`
propagates the error to its caller instead of returning an empty
sequence. -/
theorem retrieve_embed_error_propagates_cex :
    retrieve wEmbFail wSearch (mkRetriever none none) "q" = .error "boom" ∧
    retrieve wEmbFail wSearch (mkRetriever none none) "q" ≠ .ok [] := by
  exact ⟨rfl, by decide⟩

/-- Claim C4 as amended: an embedding call that resolves with an empty
result makes `retrieve` return an empty sequence, while an embedding call
that rejects has its error propagated unchanged (there is no catch in
`retrieve`). -/
theorem retrieve_embedding_failure_policy (model : EmbeddingModel)
    (search : List ℚ → ℕ → List RagDocument) (r : Retriever) (query : String) :
    (model.generateEmbeddings [query] = .ok [] →
      retrieve model search r query = .ok []) ∧
    (∀ e, model.generateEmbeddings [query] = .error e →
      retrieve model search r query = .error e) := by
  constructor
  · intro h; unfold retrieve; rw [h]; rfl
  · intro e h; unfold retrieve; rw [h]

/-- Witness for the amended claim C4 at concrete models. -/
theorem retrieve_embedding_failure_policy_witness :
    retrieve wEmbEmpty wSearch (mkRetriever none none) "q" = .ok [] ∧
    retrieve wEmbFail wSearch (mkRetriever none none) "q" = .error "boom" :=
  ⟨(retrieve_embedding_failure_policy wEmbEmpty wSearch (mkRetriever none none) "q").1 rfl,
   (retrieve_embedding_failure_policy wEmbFail wSearch (mkRetriever none none) "q").2 "boom" rfl⟩

/-- Claim C2: `retrieve` returns exactly the documents of the similarity
search result that carry no similarity annotation or whose annotation is at
least the configured threshold (inclusive bound); in particular no returned
document has an annotation below the threshold. -/
theorem retrieve_filters_by_threshold (model : EmbeddingModel)
    (search : List ℚ → ℕ → List RagDocument) (r : Retriever) (query : String)
    (es : List (List ℚ)) (qe : List ℚ)
    (hemb : model.generateEmbeddings [query] = .ok es)
    (hhead : es.head? = some qe) :
    ∃ out, retrieve model search r query = .ok out ∧
      (∀ d : RagDocument, d ∈ out ↔ d ∈ search qe r.topK ∧
        (d.similarity = none ∨ ∃ s, d.similarity = some s ∧ s ≥ r.similarityThreshold)) ∧
      (∀ (d : RagDocument) (s : ℚ), d ∈ out → d.similarity = some s →
        s ≥ r.similarityThreshold) := by
  refine ⟨(search qe r.topK).filter (keepDoc r.similarityThreshold), ?_, ?_, ?_⟩
  · unfold retrieve; rw [hemb]; show (match es.head? with
      | none => Except.ok []
      | some queryEmbedding =>
        Except.ok ((search queryEmbedding r.topK).filter (keepDoc r.similarityThreshold))) = _
    rw [hhead]
  · intro d
    rw [List.mem_filter, keepDoc_eq_true_iff]
  · intro d s hmem hsim
    have h := (List.mem_filter.mp hmem).2
    rw [keepDoc_eq_true_iff] at h
    rcases h with h | ⟨s2, hs2, hge⟩
    · rw [h] at hsim; cases hsim
    · rw [hs2] at hsim
      injection hsim with he
      exact he ▸ hge

/-- Witness for claim C2 at a concrete annotated result set: the
high-scoring and unannotated documents pass, the low-scoring one is
rejected. -/
theorem retrieve_filters_by_threshold_witness :
    ∃ out, retrieve wEmbOne wSearch (mkRetriever none none) "q" = .ok out ∧
      (∀ d : RagDocument, d ∈ out ↔ d ∈ wSearch [1] (mkRetriever none none).topK ∧
        (d.similarity = none ∨ ∃ s, d.similarity = some s ∧
          s ≥ (mkRetriever none none).similarityThreshold)) ∧
      (∀ (d : RagDocument) (s : ℚ), d ∈ out → d.similarity = some s →
        s ≥ (mkRetriever none none).similarityThreshold) :=
  retrieve_filters_by_threshold wEmbOne wSearch (mkRetriever none none) "q" [[1]] [1] rfl rfl

/-- Claim C3: when retrieval yields no documents, `RAGPipeline.query`
returns the fixed no-information text with empty source documents and
finish reason tagged no_context, and issues no generator call at all. -/
theorem pipelineQuery_no_context_short_circuit (model : EmbeddingModel)
    (search : List ℚ → ℕ → List RagDocument) (r : Retriever)
    (promptTemplate : String → String → String)
    (generate : String → LLMResponse) (query : String)
    (hret : retrieve model search r query = .ok []) :
    pipelineQuery model search r promptTemplate generate query =
      ⟨.ok { text := noInfoText
             sourceDocuments := some []
             metadata := some { finishReason := some "no_context" } }, []⟩ := by
  unfold pipelineQuery
  rw [hret]
  rfl

/-- Witness for claim C3: a pipeline over an effectively empty retrieval
returns the fixed response without consulting the generator. -/
theorem pipelineQuery_no_context_short_circuit_witness :
    pipelineQuery wEmbEmpty wSearch (mkRetriever none none) wTmpl wGen "q" =
      ⟨.ok { text := noInfoText
             sourceDocuments := some []
             metadata := some { finishReason := some "no_context" } }, []⟩ :=
  pipelineQuery_no_context_short_circuit wEmbEmpty wSearch (mkRetriever none none)
    wTmpl wGen "q" rfl

/-- An embedding model resolving with the vector `[2]` for the text `xx`
and `[3]` for any other text. -/
def wEmbTwo : EmbeddingModel :=
  ⟨"two-model", fun ts => .ok (ts.map (fun t => if t = "xx" then [2] else [3]))⟩

/-- A document lacking an embedding, with non-empty content `xx`. -/
def wDocNeedsA : RagDocument := { id := "na", content := "xx" }

/-- Another document lacking an embedding, with non-empty content. -/
def wDocNeedsB : RagDocument := { id := "nb", content := "yyy" }

/-- A document arriving with a pre-supplied embedding. -/
def wDocPre : RagDocument := { id := "pre", content := "zz", embedding := some [5] }

/-- Claim C5: one `addDocuments` call issues at most one provider batch —
exactly one, holding the contents of all documents that lack an embedding
but have non-empty content, and none when there are no such documents —
and the generated vectors are assigned back to those documents in input
order (the document at index `i`, if needy, receives the vector whose
batch position is the count of needy documents before `i`). -/
theorem addDocuments_single_batch (model : EmbeddingModel) (store : InMemoryStore)
    (docs : List RagDocument) (es : List (List ℚ))
    (hok : model.generateEmbeddings ((docs.filter needsEmbed).map (fun d => d.content)) = .ok es) :
    ((addDocuments model store docs).embedCalls =
      if docs.filter needsEmbed = [] then []
      else [(docs.filter needsEmbed).map (fun d => d.content)]) ∧
    (addDocuments model store docs).embedCalls.length ≤ 1 ∧
    (∃ st2 docs2, (addDocuments model store docs).result = .ok (st2, docs2) ∧
      ∀ i : ℕ, docs2.get? i = (docs.get? i).map (fun d =>
        if needsEmbed d then { d with embedding := es.get? ((docs.take i).countP needsEmbed) }
        else d)) := by
  by_cases hf : docs.filter needsEmbed = []
  · by_cases hd : docs = []
    · subst hd
      refine ⟨rfl, by simp [addDocuments], store, [], rfl, fun i => by simp⟩
    · rw [addDocuments_of_no_embeds model store docs hd hf]
      refine ⟨by simp [hf], by simp, storeDocs store docs, docs, rfl, fun i => ?_⟩
      cases hdoc : docs.get? i with
      | none => simp
      | some d =>
        have hmem : d ∈ docs := List.get?_mem hdoc
        have hnd : ¬ (needsEmbed d = true) := by
          intro hcontra
          have := List.filter_eq_nil_iff.mp hf d hmem
          exact this hcontra
        simp [hnd]
  · rw [addDocuments_of_genOk model store docs es hf hok]
    exact ⟨by simp [hf], by simp [hf],
      storeDocs store (assignEmbeds docs es), assignEmbeds docs es, rfl,
      fun i => assignEmbeds_get? docs es i⟩

/-- The batch of vectors the two-vector model produces for the concrete
three-document witness batch. -/
def wVecs : List (List ℚ) := [[2], [3]]

/-- The concrete three-document batch used by the ingestion witnesses. -/
def wBatch : List RagDocument := [wDocNeedsA, wDocPre, wDocNeedsB]

/-- Witness for claim C5: two needy documents around a pre-embedded one;
the single batch holds exactly their contents and each receives its own
vector in order. -/
theorem addDocuments_single_batch_witness :
    ((addDocuments wEmbTwo ⟨[]⟩ wBatch).embedCalls =
      if wBatch.filter needsEmbed = [] then []
      else [(wBatch.filter needsEmbed).map (fun d => d.content)]) ∧
    (addDocuments wEmbTwo ⟨[]⟩ wBatch).embedCalls.length ≤ 1 ∧
    (∃ st2 docs2,
      (addDocuments wEmbTwo ⟨[]⟩ wBatch).result = .ok (st2, docs2) ∧
      ∀ i : ℕ, docs2.get? i = (wBatch.get? i).map (fun d =>
        if needsEmbed d then
          { d with embedding := wVecs.get? ((wBatch.take i).countP needsEmbed) }
        else d)) :=
  addDocuments_single_batch wEmbTwo ⟨[]⟩ wBatch wVecs (by decide)

/-- Claim C9: `addDocuments` mutates the caller-supplied document array in
place — modelled as the array state after the call — assigning exactly the
generated vector to the embedding field of every document that lacked one
and has non-empty content, and leaving every other field (and every other
document) unchanged. -/
theorem addDocuments_mutates_input_docs (model : EmbeddingModel) (store : InMemoryStore)
    (docs : List RagDocument) (es : List (List ℚ))
    (hok : model.generateEmbeddings ((docs.filter needsEmbed).map (fun d => d.content)) = .ok es)
    (hlen : es.length = (docs.filter needsEmbed).length) :
    ∃ st2 docs2, (addDocuments model store docs).result = .ok (st2, docs2) ∧
      docs2.length = docs.length ∧
      ∀ (i : ℕ) (d : RagDocument), docs.get? i = some d →
        ∃ d2, docs2.get? i = some d2 ∧
          d2.id = d.id ∧ d2.content = d.content ∧ d2.metadata = d.metadata ∧
          d2.similarity = d.similarity ∧
          (needsEmbed d = true →
            ∃ v, es.get? ((docs.take i).countP needsEmbed) = some v ∧ d2.embedding = some v) ∧
          (needsEmbed d = false → d2 = d) := by
  by_cases hf : docs.filter needsEmbed = []
  · by_cases hd : docs = []
    · subst hd
      exact ⟨store, [], rfl, rfl, fun i d h => by simp at h⟩
    · rw [addDocuments_of_no_embeds model store docs hd hf]
      refine ⟨storeDocs store docs, docs, rfl, rfl, fun i d h => ?_⟩
      have hmem : d ∈ docs := List.get?_mem h
      have hnd : needsEmbed d = false := by
        have hn := List.filter_eq_nil_iff.mp hf d hmem
        cases hcase : needsEmbed d
        · rfl
        · exact absurd hcase hn
      refine ⟨d, h, rfl, rfl, rfl, rfl, ?_, fun _ => rfl⟩
      intro hcontra
      simp [hnd] at hcontra
  · rw [addDocuments_of_genOk model store docs es hf hok]
    refine ⟨storeDocs store (assignEmbeds docs es), assignEmbeds docs es, rfl,
      assignEmbeds_length docs es, fun i d h => ?_⟩
    have hget := assignEmbeds_get? docs es i
    rw [h] at hget
    cases hcase : needsEmbed d with
    | true =>
      have hc : (docs.take i).countP needsEmbed < es.length := by
        rw [hlen, ← List.countP_eq_length_filter]
        exact countP_take_lt needsEmbed docs i d h hcase
      have hv : es.get? ((docs.take i).countP needsEmbed)
          = some (es.get ⟨(docs.take i).countP needsEmbed, hc⟩) := List.get?_eq_get hc
      refine ⟨{ d with embedding := es.get? ((docs.take i).countP needsEmbed) },
        ?_, rfl, rfl, rfl, rfl, ?_, ?_⟩
      · rw [hget]; simp [hcase]
      · intro h2
        exact ⟨es.get ⟨(docs.take i).countP needsEmbed, hc⟩, hv, by rw [hv]⟩
      · intro hcontra
        simp [hcase] at hcontra
    | false =>
      refine ⟨d, ?_, rfl, rfl, rfl, rfl, ?_, fun _ => rfl⟩
      · rw [hget]; simp [hcase]
      · intro hcontra
        simp [hcase] at hcontra

/-- Witness for claim C9 at the concrete three-document batch. -/
theorem addDocuments_mutates_input_docs_witness :
    ∃ st2 docs2,
      (addDocuments wEmbTwo ⟨[]⟩ wBatch).result = .ok (st2, docs2) ∧
      docs2.length = wBatch.length ∧
      ∀ (i : ℕ) (d : RagDocument), wBatch.get? i = some d →
        ∃ d2, docs2.get? i = some d2 ∧
          d2.id = d.id ∧ d2.content = d.content ∧ d2.metadata = d.metadata ∧
          d2.similarity = d.similarity ∧
          (needsEmbed d = true →
            ∃ v, wVecs.get? ((wBatch.take i).countP needsEmbed) = some v ∧
              d2.embedding = some v) ∧
          (needsEmbed d = false → d2 = d) :=
  addDocuments_mutates_input_docs wEmbTwo ⟨[]⟩ wBatch wVecs (by decide) (by decide)

/-- Claim C6: for the in-memory backend `addDocuments` is a keyed upsert by
document id.  Inserting two documents with the same id in succession — each
a valid Document per the data model (non-empty content, or an embedding
already present) against a length-preserving resolving provider — leaves
exactly one stored entry under that id, holding the latest content. -/
theorem inMemory_addDocuments_upserts_by_id (model : EmbeddingModel) (store : InMemoryStore)
    (doc1 doc2 : RagDocument)
    (hwf : (store.entries.map Prod.fst).Nodup)
    (hid : doc1.id = doc2.id)
    (hok : ∀ ts, ∃ es, model.generateEmbeddings ts = .ok es ∧ es.length = ts.length)
    (h1 : doc1.embedding.isSome ∨ doc1.content ≠ "")
    (h2 : doc2.embedding.isSome ∨ doc2.content ≠ "") :
    ∃ st1 st2 d1 d2,
      (addDocuments model store [doc1]).result = .ok (st1, [d1]) ∧
      (addDocuments model st1 [doc2]).result = .ok (st2, [d2]) ∧
      (st2.entries.filter (fun p => p.1 = doc1.id)).map (fun p => p.2.content)
        = [doc2.content] ∧
      st2.entries.countP (fun p => p.1 = doc1.id) = 1 := by
  obtain ⟨d1, hr1, hid1, hc1, he1⟩ := addDocuments_single_ok model store doc1 hok h1
  have hwf1 : ((mapSet store.entries d1.id d1).map Prod.fst).Nodup :=
    mapSet_keys_nodup store.entries d1.id d1 hwf
  obtain ⟨d2, hr2, hid2, hc2, he2⟩ :=
    addDocuments_single_ok model ⟨mapSet store.entries d1.id d1⟩ doc2 hok h2
  refine ⟨⟨mapSet store.entries d1.id d1⟩, ⟨mapSet (mapSet store.entries d1.id d1) d2.id d2⟩,
    d1, d2, hr1, hr2, ?_, ?_⟩
  · rw [hid, ← hid2, mapSet_filter_self d2.id d2 (mapSet store.entries d1.id d1) hwf1]
    simp [hc2]
  · rw [hid, ← hid2, List.countP_eq_length_filter,
      mapSet_filter_self d2.id d2 (mapSet store.entries d1.id d1) hwf1]
    rfl

/-- The first version of the duplicate-id document, already embedded. -/
def wDocV1 : RagDocument := { id := "dup", content := "version one", embedding := some [1] }

/-- The second version of the duplicate-id document, to be embedded at
ingestion. -/
def wDocV2 : RagDocument := { id := "dup", content := "version two" }

/-- Witness for claim C6: inserting two versions of the document id `dup`
into an empty store leaves exactly one entry holding the latest content. -/
theorem inMemory_addDocuments_upserts_by_id_witness :
    ∃ st1 st2 d1 d2,
      (addDocuments wEmbTwo ⟨[]⟩ [wDocV1]).result = .ok (st1, [d1]) ∧
      (addDocuments wEmbTwo st1 [wDocV2]).result = .ok (st2, [d2]) ∧
      (st2.entries.filter (fun p => p.1 = wDocV1.id)).map (fun p => p.2.content)
        = [wDocV2.content] ∧
      st2.entries.countP (fun p => p.1 = wDocV1.id) = 1 :=
  inMemory_addDocuments_upserts_by_id wEmbTwo ⟨[]⟩ wDocV1 wDocV2 (by simp) rfl
    (fun ts => ⟨ts.map (fun t => if t = "xx" then [2] else [3]), rfl, by simp⟩)
    (by decide) (by decide)

/-! ### The in-memory search placeholder (claim C1) -/

/-- A stored document whose embedding is orthogonal to the query used in
the code-bug demonstration. -/
def bugDocFirst : RagDocument :=
  { id := "a", content := "first inserted", embedding := some [0, 1] }

/-- A stored document whose embedding equals, hence is maximally cosine
similar to, the query used in the code-bug demonstration. -/
def bugDocSecond : RagDocument :=
  { id := "b", content := "second inserted", embedding := some [1, 0] }

/-- The in-memory state after ingesting the two documents above. -/
def bugStore : InMemoryStore := ⟨[("a", bugDocFirst), ("b", bugDocSecond)]⟩

/-- Claim C1, code bug: the in-memory `similaritySearch` is a placeholder.
On a reachable store (built by `addDocuments`), searching for the query
`[1, 0]` with topK 1 returns the first-inserted document even though the
other stored vector has strictly greater cosine similarity to the query
(the two stored vectors have equal norms, so cosine order is dot-product
order), the result is identical for an unrelated query, and no returned
document carries a similarity annotation.  The code contradicts its own
comment and the specification, both of which call for a real cosine
ranking. -/
theorem inMemory_search_is_placeholder_code_bug :
    (addDocuments wEmbOne ⟨[]⟩ [bugDocFirst, bugDocSecond]).result
      = .ok (bugStore, [bugDocFirst, bugDocSecond]) ∧
    similaritySearch bugStore [1, 0] 1 = [bugDocFirst] ∧
    similaritySearch bugStore [5, 7] 1 = similaritySearch bugStore [1, 0] 1 ∧
    bugDocFirst.embedding = some [0, 1] ∧
    bugDocSecond.embedding = some [1, 0] ∧
    normSq [0, 1] = normSq [1, 0] ∧
    dotList [1, 0] [1, 0] > dotList [1, 0] [0, 1] ∧
    (∀ d ∈ similaritySearch bugStore [1, 0] 1, d.similarity = none) := by
  refine ⟨by decide, by decide, by decide, rfl, rfl, ?_, ?_, by decide⟩
  · norm_num [normSq, dotList]
  · norm_num [dotList]

end RagPipeline
